import Mathlib

/-!
Verification development for the BSL PostgreSQL adapter
(`bsl_psql/server.py`): a shallow embedding of the semantic catalog,
the SQL-to-BSL query translator, the query handler's delivery
discipline, the authentication check, and the connection lifecycle.

External collaborators (the sqlglot parser, the riffq wire engine and
the BSL compute backend) are modelled only through the interfaces the
core consumes: a parsed statement value, an abstract execute function,
and the delivered result triple.
-/

namespace BSL

/-- A registered semantic table's queryable shape: its dimension and
measure column names.  Embeds the `SemanticTable` objects stored in
`BSLSemanticCatalog.tables`; membership tests `col in
semantic_table.dimensions` / `.measures` from `handle_query` become
list membership. -/
structure SemanticTable where
  dimensions : List String
  measures : List String
deriving DecidableEq, Repr

/-- Classified translation errors.  The Python code raises plain
exceptions carrying these messages; the constructors follow the error
taxonomy, `message` reproduces the raised text. -/
inductive QueryError where
  | noTableSpecified
  | tableNotFound (table : String)
  | columnNotFound (table : String) (column : String)
deriving DecidableEq, Repr

/-- Single-quote character, used in the raised error texts. -/
def sq : String := (Char.ofNat 39).toString

/-- The message string each raised exception carries
(`str(e)` as delivered through the error callback). -/
def QueryError.message : QueryError → String
  | .noTableSpecified => "No table specified in query"
  | .tableNotFound t =>
      "Table " ++ sq ++ t ++ sq ++ " not found in semantic catalog"
  | .columnNotFound t c =>
      "Column " ++ sq ++ c ++ sq ++ " not found in semantic table " ++ sq ++ t ++ sq

/-- A selected column spec: a plain identifier/expression carrying a
name, or an aliased expression.  `handle_query` uses
`select_expr.alias` for `exp.Alias` nodes and `select_expr.name`
otherwise; the underlying expression of an alias is kept here only to
state that it is never inspected. -/
inductive SelectExpr where
  | ident (name : String)
  | aliased (underlying : String) (aliasName : String)
deriving DecidableEq, Repr

/-- Effective column name: alias if present, else the node's name
(source lines 101-105). -/
def SelectExpr.effectiveName : SelectExpr → String
  | .ident n => n
  | .aliased _ a => a

/-- A GROUP BY expression: a plain identifier, or any other node
(the loop at source lines 110-113 keeps only `exp.Identifier`). -/
inductive GroupExpr where
  | identifier (name : String)
  | other (text : String)
deriving DecidableEq, Repr

/-- The read-only view of the parsed SQL statement the translator
consumes: the first table reference found (`ast.find(exp.Table)`),
the select list (`ast.selects`), and the optional GROUP BY clause
(`ast.args.get("group")`). -/
structure ParsedStatement where
  table : Option String
  selects : List SelectExpr
  group : Option (List GroupExpr)
deriving DecidableEq, Repr

/-- Output of a successful translation. -/
structure TranslatedQuery where
  table : String
  descriptor : SemanticTable
  selectedDimensions : List String
  selectedMeasures : List String
  groupBy : List String
deriving DecidableEq, Repr

/-- The catalog's backing store: `self.tables`, a Python dict from
table name to semantic table, embedded as an insertion-ordered
association list. -/
def getTable : List (String × SemanticTable) → String → Option SemanticTable
  | [], _ => none
  | (k, v) :: rest, n => if k = n then some v else getTable rest n

/-- `register_table`: `self.tables[name] = semantic_table` — replaces
the binding in place if the key exists, else appends. -/
def registerTable : List (String × SemanticTable) → String → SemanticTable →
    List (String × SemanticTable)
  | [], n, t => [(n, t)]
  | (k, v) :: rest, n, t =>
      if k = n then (k, t) :: rest else (k, v) :: registerTable rest n t

/-- The classification loop of `handle_query` (source lines 115-125):
each selected column name goes to `dimensions` if in the table's
dimension set, else to `measures` if in its measure set, else the
whole statement fails with `ColumnNotFound`. -/
def classifyCols (st : SemanticTable) (tableName : String) :
    List String → Except QueryError (List String × List String)
  | [] => .ok ([], [])
  | col :: rest =>
      if col ∈ st.dimensions then
        match classifyCols st tableName rest with
        | .ok (dims, meas) => .ok (col :: dims, meas)
        | .error e => .error e
      else if col ∈ st.measures then
        match classifyCols st tableName rest with
        | .ok (dims, meas) => .ok (dims, col :: meas)
        | .error e => .error e
      else
        .error (.columnNotFound tableName col)

/-- The GROUP BY extraction loop (source lines 108-113): collect the
names of the identifier expressions of the clause, in order; a missing
clause yields the empty list. -/
def groupByCols : Option (List GroupExpr) → List String
  | none => []
  | some exprs =>
      exprs.filterMap fun e =>
        match e with
        | .identifier n => some n
        | .other _ => none

/-- The translation portion of `handle_query` (source lines 88-132):
resolve the table, compute effective select names, classify them, and
determine the grouping (`if not group_by_cols and dimensions:
group_by_cols = dimensions`). -/
def translate (catalog : List (String × SemanticTable)) (ast : ParsedStatement) :
    Except QueryError TranslatedQuery :=
  match ast.table with
  | none => .error .noTableSpecified
  | some tableName =>
      match getTable catalog tableName with
      | none => .error (.tableNotFound tableName)
      | some st =>
          let selectCols := ast.selects.map SelectExpr.effectiveName
          let groupCols := groupByCols ast.group
          match classifyCols st tableName selectCols with
          | .error e => .error e
          | .ok (dims, meas) =>
              let gb := if groupCols.isEmpty && !dims.isEmpty then dims else groupCols
              .ok { table := tableName, descriptor := st,
                    selectedDimensions := dims, selectedMeasures := meas,
                    groupBy := gb }

/-- What the query callback delivers to the caller:
`(resultBatch | none, schema | none, errorMessage | none)`. -/
structure Delivery (β σ : Type) where
  batch : Option β
  schema : Option σ
  errorMessage : Option String
deriving DecidableEq, Repr

/-- `handle_query` (source lines 77-146) as seen by the caller of the
query callback.  Its inputs model the external collaborators: `parsed`
is the outcome of `sqlglot.parse_one` (a raised parse error is caught
by the handler's `except` block), `execute` is the BSL backend call
`semantic_table.group_by(...).aggregate(...).execute()` packaged with
`send_reader`'s schema derivation, which may itself fail.  On success
the batch and schema are delivered; on any failure the error message
alone is delivered. -/
def handle_query {β σ : Type} (execute : TranslatedQuery → Except String (β × σ))
    (catalog : List (String × SemanticTable))
    (parsed : Except String ParsedStatement) : Delivery β σ :=
  match parsed with
  | .error msg => { batch := none, schema := none, errorMessage := some msg }
  | .ok ast =>
      match translate catalog ast with
      | .error e => { batch := none, schema := none, errorMessage := some e.message }
      | .ok tq =>
          match execute tq with
          | .error msg => { batch := none, schema := none, errorMessage := some msg }
          | .ok (b, s) => { batch := some b, schema := some s, errorMessage := none }

/-- Modelled from the spec: the per-connection state machine of §4.3
(`Unauthenticated`, `Idle`, `Executing`, `Terminated`); the connection
state is kept by the external wire engine and does not appear in the
source. -/
inductive ConnectionState where
  | Unauthenticated
  | Idle
  | Executing
  | Terminated
deriving DecidableEq, Repr

/-- `handle_auth` (source lines 65-67): accept exactly the single demo
user, ignoring host and database. -/
def handle_auth (user password : String) (_host : String) (_database : Option String) : Bool :=
  user == "user" && password == "secret"

/-- The server's construction-time configuration
(`BSLPostgresServer.__init__`, source lines 154-166). -/
structure BSLPostgresServer where
  host : String
  port : Nat
  user : String
  password : String
deriving DecidableEq, Repr

/-- The authentication decision made on a connection of a given
server: the connection class's `handle_auth` never reads the server's
configured fields. -/
def serverAuth (_srv : BSLPostgresServer) (user password host : String)
    (database : Option String) : Bool :=
  handle_auth user password host database

/-- Modelled from the spec: the query transition of §4.3 — an `Idle`
connection enters `Executing`, runs the handler, delivers its outcome
and returns to `Idle` whether or not the query failed; in any other
state no query is served. -/
def queryStep {β σ : Type} (execute : TranslatedQuery → Except String (β × σ))
    (catalog : List (String × SemanticTable)) (s : ConnectionState)
    (parsed : Except String ParsedStatement) :
    ConnectionState × Option (Delivery β σ) :=
  match s with
  | .Idle => (.Idle, some (handle_query execute catalog parsed))
  | s => (s, none)

/-- Modelled from the spec: the authentication transition of §4.3 —
success moves `Unauthenticated` to `Idle`, failure stays
`Unauthenticated`; other states are unaffected. -/
def authStep (s : ConnectionState) (user password host : String)
    (database : Option String) : ConnectionState :=
  match s with
  | .Unauthenticated =>
      if handle_auth user password host database then .Idle else .Unauthenticated
  | s => s

/-- The flights catalog of §8. -/
def flightsTable : SemanticTable :=
  { dimensions := ["origin", "destination", "route"],
    measures := ["total_passengers", "avg_delay", "total_distance", "flight_count"] }

def flightsCatalog : List (String × SemanticTable) := [("flights", flightsTable)]

/-- Parse of "SELECT origin, total_passengers FROM flights". -/
def flightsStmt : ParsedStatement :=
  { table := some "flights",
    selects := [.ident "origin", .ident "total_passengers"],
    group := none }

def flightsTQ : TranslatedQuery :=
  { table := "flights", descriptor := flightsTable,
    selectedDimensions := ["origin"], selectedMeasures := ["total_passengers"],
    groupBy := ["origin"] }

/-- The sales catalog of §8. -/
def salesTable : SemanticTable :=
  { dimensions := ["product", "region"],
    measures := ["total_sales", "total_units", "avg_price"] }

def salesCatalog : List (String × SemanticTable) := [("sales", salesTable)]

/-- Parse of "SELECT region, total_units FROM sales GROUP BY region". -/
def salesStmt : ParsedStatement :=
  { table := some "sales",
    selects := [.ident "region", .ident "total_units"],
    group := some [.identifier "region"] }

def salesTQ : TranslatedQuery :=
  { table := "sales", descriptor := salesTable,
    selectedDimensions := ["region"], selectedMeasures := ["total_units"],
    groupBy := ["region"] }

/-- Parse of "SELECT origin, bogus FROM flights": `bogus` is neither a
dimension nor a measure of the flights table. -/
def badColStmt : ParsedStatement :=
  { table := some "flights",
    selects := [.ident "origin", .ident "bogus"],
    group := none }

/-- A backend that always succeeds, for concrete instantiations. -/
def execOk : TranslatedQuery → Except String (Nat × Nat) := fun _ => .ok (1, 1)

/-- A backend that always fails, for concrete instantiations. -/
def execFail : TranslatedQuery → Except String (Nat × Nat) :=
  fun _ => .error "backend unavailable"

/-! ## Characterization lemmas -/

/-- A successful classification returns exactly the selected dimension
names (in select order) and the selected measure names (in select
order, a name in both sets being classified as a dimension first). -/
theorem classifyCols_ok {st : SemanticTable} {tableName : String} :
    ∀ {cols dims meas : List String},
      classifyCols st tableName cols = .ok (dims, meas) →
      dims = cols.filter (fun c => decide (c ∈ st.dimensions)) ∧
      meas = cols.filter
        (fun c => !decide (c ∈ st.dimensions) && decide (c ∈ st.measures)) := by
  intro cols
  induction cols with
  | nil =>
      intro dims meas h
      simp [classifyCols] at h
      simp [h.1, h.2]
  | cons col rest ih =>
      intro dims meas h
      by_cases hd : col ∈ st.dimensions
      · simp only [classifyCols, if_pos hd] at h
        cases hrec : classifyCols st tableName rest with
        | error e => rw [hrec] at h; exact absurd h (by simp)
        | ok p =>
            obtain ⟨ds, ms⟩ := p
            rw [hrec] at h
            simp only [Except.ok.injEq, Prod.mk.injEq] at h
            obtain ⟨hds, hms⟩ := ih hrec
            rw [← h.1, ← h.2, hds, hms]
            simp [List.filter_cons, hd]
      · by_cases hm : col ∈ st.measures
        · simp only [classifyCols, if_neg hd, if_pos hm] at h
          cases hrec : classifyCols st tableName rest with
          | error e => rw [hrec] at h; exact absurd h (by simp)
          | ok p =>
              obtain ⟨ds, ms⟩ := p
              rw [hrec] at h
              simp only [Except.ok.injEq, Prod.mk.injEq] at h
              obtain ⟨hds, hms⟩ := ih hrec
              rw [← h.1, ← h.2, hds, hms]
              simp [List.filter_cons, hd, hm]
        · simp only [classifyCols, if_neg hd, if_neg hm] at h
          exact absurd h (by simp)

/-- Classification fails with `ColumnNotFound` at the first selected
column that is in neither set. -/
theorem classifyCols_error_first {st : SemanticTable} {tableName : String} :
    ∀ {cols : List String} {c : String},
      cols.find? (fun x => !decide (x ∈ st.dimensions) && !decide (x ∈ st.measures)) =
        some c →
      classifyCols st tableName cols = .error (.columnNotFound tableName c) := by
  intro cols
  induction cols with
  | nil => intro c h; simp [List.find?] at h
  | cons col rest ih =>
      intro c h
      by_cases hd : col ∈ st.dimensions
      · rw [List.find?_cons_of_neg] at h
        · simp [classifyCols, if_pos hd, ih h]
        · simp [hd]
      · by_cases hm : col ∈ st.measures
        · rw [List.find?_cons_of_neg] at h
          · simp [classifyCols, if_neg hd, if_pos hm, ih h]
          · simp [hm]
        · rw [List.find?_cons_of_pos] at h
          · cases h
            simp [classifyCols, if_neg hd, if_neg hm]
          · simp [hd, hm]

/-- Anatomy of a successful translation: the statement named a table,
the catalog resolved it, classification succeeded with exactly the
produced dimension/measure lists, and the grouping follows the
explicit-else-inferred rule. -/
theorem translate_ok_parts {catalog : List (String × SemanticTable)}
    {ast : ParsedStatement} {tq : TranslatedQuery}
    (ht : translate catalog ast = .ok tq) :
    ∃ tableName st,
      ast.table = some tableName ∧
      getTable catalog tableName = some st ∧
      tq.table = tableName ∧ tq.descriptor = st ∧
      classifyCols st tableName (ast.selects.map SelectExpr.effectiveName) =
        .ok (tq.selectedDimensions, tq.selectedMeasures) ∧
      tq.groupBy =
        (if (groupByCols ast.group).isEmpty && !tq.selectedDimensions.isEmpty
         then tq.selectedDimensions else groupByCols ast.group) := by
  cases htab : ast.table with
  | none => simp [translate, htab] at ht
  | some tableName =>
      cases hst : getTable catalog tableName with
      | none => simp [translate, htab, hst] at ht
      | some st =>
          simp only [translate, htab, hst] at ht
          cases hc : classifyCols st tableName (ast.selects.map SelectExpr.effectiveName) with
          | error e => simp only [hc] at ht; exact absurd ht (by simp)
          | ok p =>
              obtain ⟨dims, meas⟩ := p
              simp only [hc, Except.ok.injEq] at ht
              refine ⟨tableName, st, rfl, hst, ?_, ?_, ?_, ?_⟩ <;> rw [← ht]
              exact hc

/-- GROUP BY extraction over a clause made of plain identifiers
returns the identifier names verbatim. -/
theorem groupByCols_identifiers :
    ∀ gs : List String, groupByCols (some (gs.map GroupExpr.identifier)) = gs := by
  intro gs
  induction gs with
  | nil => rfl
  | cons n rest ih =>
      simp only [groupByCols, List.map_cons, List.filterMap_cons] at ih ⊢
      rw [ih]

/-! ## Claim theorems -/

/-- C1: with no explicit GROUP BY clause, the translated `groupBy` is
the ordered list of selected dimension names in select order,
duplicates preserved (this single equation also covers the case of no
selected dimensions, where the filter — and hence `groupBy` — is
empty). -/
theorem groupBy_inferred_from_dimensions
    (catalog : List (String × SemanticTable)) (ast : ParsedStatement)
    (tq : TranslatedQuery) (tableName : String) (st : SemanticTable)
    (htab : ast.table = some tableName)
    (hst : getTable catalog tableName = some st)
    (hng : ast.group = none)
    (ht : translate catalog ast = .ok tq) :
    tq.groupBy = (ast.selects.map SelectExpr.effectiveName).filter
      (fun c => decide (c ∈ st.dimensions)) := by
  obtain ⟨tn, st', htab', hst', -, -, hc, hgb⟩ := translate_ok_parts ht
  rw [htab] at htab'
  cases htab'
  rw [hst] at hst'
  cases hst'
  obtain ⟨hdims, -⟩ := classifyCols_ok hc
  rw [hgb, hng, hdims]
  simp only [groupByCols, List.isEmpty_nil, Bool.true_and]
  cases hF : (List.filter (fun c => decide (c ∈ st.dimensions))
      (ast.selects.map SelectExpr.effectiveName)).isEmpty with
  | true => simp [List.isEmpty_iff.mp hF]
  | false => simp [hF]

/-- C1 witness: the flights example of §8. -/
theorem groupBy_inferred_from_dimensions_witness :
    translate flightsCatalog flightsStmt = .ok flightsTQ ∧
    flightsTQ.groupBy = (flightsStmt.selects.map SelectExpr.effectiveName).filter
      (fun c => decide (c ∈ flightsTable.dimensions)) :=
  ⟨rfl, groupBy_inferred_from_dimensions flightsCatalog flightsStmt flightsTQ
    "flights" flightsTable rfl rfl rfl rfl⟩

/-- C2: an explicit GROUP BY identifier list is used verbatim, order
preserved; inference from the selected dimensions is not consulted. -/
theorem explicit_groupBy_used_verbatim
    (catalog : List (String × SemanticTable)) (ast : ParsedStatement)
    (tq : TranslatedQuery) (gs : List String)
    (hg : ast.group = some (gs.map GroupExpr.identifier))
    (hne : gs ≠ [])
    (ht : translate catalog ast = .ok tq) :
    tq.groupBy = gs := by
  obtain ⟨tn, st', -, -, -, -, -, hgb⟩ := translate_ok_parts ht
  rw [hg, groupByCols_identifiers] at hgb
  rw [hgb]
  cases gs with
  | nil => exact absurd rfl hne
  | cons g rest => simp

/-- C2 witness: the sales example of §8 — explicit `GROUP BY region`
wins, yielding `groupBy = [region]`. -/
theorem explicit_groupBy_used_verbatim_witness :
    translate salesCatalog salesStmt = .ok salesTQ ∧
    salesTQ.groupBy = ["region"] :=
  ⟨rfl, explicit_groupBy_used_verbatim salesCatalog salesStmt salesTQ ["region"]
    rfl (by simp) rfl⟩

/-- C4: translation is all-or-nothing — if the first selected column
in neither set is `c`, translation fails with `ColumnNotFound` at `c`,
no `TranslatedQuery` is produced, and the delivered outcome does not
depend on the backend (`descriptor.execute` is never invoked), with no
batch delivered. -/
theorem first_unclassifiable_column_aborts
    (catalog : List (String × SemanticTable)) (ast : ParsedStatement)
    (tableName c : String) (st : SemanticTable)
    (htab : ast.table = some tableName)
    (hst : getTable catalog tableName = some st)
    (hc : (ast.selects.map SelectExpr.effectiveName).find?
        (fun x => !decide (x ∈ st.dimensions) && !decide (x ∈ st.measures)) =
        some c) :
    translate catalog ast = .error (.columnNotFound tableName c) ∧
    ∀ (β σ : Type) (e1 e2 : TranslatedQuery → Except String (β × σ)),
      handle_query e1 catalog (.ok ast) = handle_query e2 catalog (.ok ast) ∧
      (handle_query e1 catalog (.ok ast)).batch = none := by
  have htrans : translate catalog ast = .error (.columnNotFound tableName c) := by
    simp only [translate, htab, hst, classifyCols_error_first hc]
  refine ⟨htrans, ?_⟩
  intro β σ e1 e2
  simp [handle_query, htrans]

/-- C4 witness: "SELECT origin, bogus FROM flights" fails at `bogus`
and delivers the same (batch-free) outcome under any backend. -/
theorem first_unclassifiable_column_aborts_witness :
    translate flightsCatalog badColStmt =
      .error (.columnNotFound "flights" "bogus") ∧
    handle_query execOk flightsCatalog (.ok badColStmt) =
      handle_query execFail flightsCatalog (.ok badColStmt) := by
  have h := first_unclassifiable_column_aborts flightsCatalog badColStmt
    "flights" "bogus" flightsTable rfl rfl rfl
  exact ⟨h.1, (h.2 Nat Nat execOk execFail).1⟩

/-- C5: a statement naming no table fails with `NoTableSpecified`; a
named table absent from the catalog fails with `TableNotFound`; in
both cases no `TranslatedQuery` is produced and the delivered outcome
does not depend on the backend (no execution occurs). -/
theorem table_resolution_errors
    (catalog : List (String × SemanticTable)) (ast : ParsedStatement) :
    (ast.table = none →
      translate catalog ast = .error .noTableSpecified ∧
      ∀ (β σ : Type) (e1 e2 : TranslatedQuery → Except String (β × σ)),
        handle_query e1 catalog (.ok ast) = handle_query e2 catalog (.ok ast) ∧
        (handle_query e1 catalog (.ok ast)).batch = none) ∧
    (∀ tableName, ast.table = some tableName → getTable catalog tableName = none →
      translate catalog ast = .error (.tableNotFound tableName) ∧
      ∀ (β σ : Type) (e1 e2 : TranslatedQuery → Except String (β × σ)),
        handle_query e1 catalog (.ok ast) = handle_query e2 catalog (.ok ast) ∧
        (handle_query e1 catalog (.ok ast)).batch = none) := by
  constructor
  · intro htab
    have htrans : translate catalog ast = .error .noTableSpecified := by
      simp [translate, htab]
    exact ⟨htrans, fun β σ e1 e2 => by simp [handle_query, htrans]⟩
  · intro tableName htab hst
    have htrans : translate catalog ast = .error (.tableNotFound tableName) := by
      simp [translate, htab, hst]
    exact ⟨htrans, fun β σ e1 e2 => by simp [handle_query, htrans]⟩

/-- C5 witness: a tableless statement and a statement naming an
unregistered table, both against the flights catalog. -/
theorem table_resolution_errors_witness :
    translate flightsCatalog
      { table := none, selects := [.ident "origin"], group := none } =
      .error .noTableSpecified ∧
    translate flightsCatalog
      { table := some "unknown", selects := [.ident "origin"], group := none } =
      .error (.tableNotFound "unknown") :=
  ⟨((table_resolution_errors flightsCatalog
      { table := none, selects := [.ident "origin"], group := none }).1 rfl).1,
   ((table_resolution_errors flightsCatalog
      { table := some "unknown", selects := [.ident "origin"], group := none }).2
      "unknown" rfl rfl).1⟩

/-- A catalog holding both demo tables, for concrete instantiations. -/
def demoCatalog : List (String × SemanticTable) :=
  [("flights", flightsTable), ("sales", salesTable)]

/-- A backend that fails on the sales table and succeeds elsewhere,
for concrete instantiations. -/
def execSel : TranslatedQuery → Except String (Nat × Nat) :=
  fun tq => if tq.table = "sales" then .error "backend unavailable" else .ok (1, 1)

/-- C3: no query-time error terminates the connection.  Whether the
first query fails at parsing (`.error msg` from the parser), at
translation, or at execution (backend error), the handler delivers a
single error message — batch and schema stay empty — the connection
returns to `Idle` (never `Terminated`), and a subsequent valid query
on the same connection succeeds. -/
theorem failed_query_keeps_connection_idle
    (β σ : Type) (execute : TranslatedQuery → Except String (β × σ))
    (catalog : List (String × SemanticTable)) (ast2 : ParsedStatement)
    (tq : TranslatedQuery) (b : β) (sch : σ)
    (h2 : translate catalog ast2 = .ok tq)
    (h3 : execute tq = .ok (b, sch)) :
    (∀ msg : String,
      queryStep execute catalog .Idle (.error msg) =
        (.Idle, some { batch := none, schema := none, errorMessage := some msg }) ∧
      (queryStep execute catalog ConnectionState.Idle (.error msg)).1 ≠
        ConnectionState.Terminated ∧
      queryStep execute catalog
        (queryStep execute catalog ConnectionState.Idle (.error msg)).1 (.ok ast2) =
        (.Idle, some { batch := some b, schema := some sch, errorMessage := none })) ∧
    (∀ (ast1 : ParsedStatement) (e : QueryError),
      translate catalog ast1 = .error e →
      queryStep execute catalog .Idle (.ok ast1) =
        (.Idle, some { batch := none, schema := none, errorMessage := some e.message }) ∧
      (queryStep execute catalog ConnectionState.Idle (.ok ast1)).1 ≠
        ConnectionState.Terminated ∧
      queryStep execute catalog
        (queryStep execute catalog ConnectionState.Idle (.ok ast1)).1 (.ok ast2) =
        (.Idle, some { batch := some b, schema := some sch, errorMessage := none })) ∧
    (∀ (ast1 : ParsedStatement) (tq1 : TranslatedQuery) (msg : String),
      translate catalog ast1 = .ok tq1 → execute tq1 = .error msg →
      queryStep execute catalog .Idle (.ok ast1) =
        (.Idle, some { batch := none, schema := none, errorMessage := some msg }) ∧
      (queryStep execute catalog ConnectionState.Idle (.ok ast1)).1 ≠
        ConnectionState.Terminated ∧
      queryStep execute catalog
        (queryStep execute catalog ConnectionState.Idle (.ok ast1)).1 (.ok ast2) =
        (.Idle, some { batch := some b, schema := some sch, errorMessage := none })) := by
  refine ⟨?_, ?_, ?_⟩
  · intro msg
    exact ⟨by simp [queryStep, handle_query], by simp [queryStep],
      by simp [queryStep, handle_query, h2, h3]⟩
  · intro ast1 e h1
    exact ⟨by simp [queryStep, handle_query, h1], by simp [queryStep],
      by simp [queryStep, handle_query, h2, h3]⟩
  · intro ast1 tq1 msg ht1 hx1
    exact ⟨by simp [queryStep, handle_query, ht1, hx1], by simp [queryStep],
      by simp [queryStep, handle_query, h2, h3]⟩

/-- C3 witness: against the demo catalog with the selectively failing
backend, a parse-failing query, a translation-failing query and an
execution-failing query each deliver one error message and leave the
connection `Idle`, after which the valid flights query succeeds. -/
theorem failed_query_keeps_connection_idle_witness :
    queryStep execSel demoCatalog ConnectionState.Idle (.error "syntax error") =
      (.Idle, some { batch := none, schema := none,
                     errorMessage := some "syntax error" }) ∧
    queryStep execSel demoCatalog ConnectionState.Idle (.ok badColStmt) =
      (.Idle, some { batch := none, schema := none,
                     errorMessage :=
                       some (QueryError.columnNotFound "flights" "bogus").message }) ∧
    queryStep execSel demoCatalog ConnectionState.Idle (.ok salesStmt) =
      (.Idle, some { batch := none, schema := none,
                     errorMessage := some "backend unavailable" }) ∧
    queryStep execSel demoCatalog
      (queryStep execSel demoCatalog ConnectionState.Idle (.ok salesStmt)).1
      (.ok flightsStmt) =
      (.Idle, some { batch := some 1, schema := some 1, errorMessage := none }) := by
  have h := failed_query_keeps_connection_idle Nat Nat execSel demoCatalog
    flightsStmt flightsTQ 1 1 rfl rfl
  exact ⟨(h.1 "syntax error").1,
         (h.2.1 badColStmt (.columnNotFound "flights" "bogus") rfl).1,
         (h.2.2 salesStmt salesTQ "backend unavailable" rfl rfl).1,
         (h.2.2 salesStmt salesTQ "backend unavailable" rfl rfl).2.2⟩

/-- C6: registration is last-write-wins — after registering `d1` then
`d2` under the same name, lookup returns `d2`, the catalog equals the
one obtained by registering `d2` alone, and every subsequent
translation behaves as under `d2` alone (columns are classified
against `d2`'s sets only). -/
theorem register_last_write_wins
    (l : List (String × SemanticTable)) (n : String) (d1 d2 : SemanticTable) :
    getTable (registerTable (registerTable l n d1) n d2) n = some d2 ∧
    registerTable (registerTable l n d1) n d2 = registerTable l n d2 ∧
    ∀ ast, translate (registerTable (registerTable l n d1) n d2) ast =
      translate (registerTable l n d2) ast := by
  have hreg : ∀ (l : List (String × SemanticTable)) (t1 t2 : SemanticTable),
      registerTable (registerTable l n t1) n t2 = registerTable l n t2 := by
    intro l t1 t2
    induction l with
    | nil => simp [registerTable]
    | cons kv rest ih =>
        obtain ⟨k, v⟩ := kv
        by_cases hk : k = n
        · simp [registerTable, hk]
        · simp [registerTable, hk, ih]
  have hget : ∀ (l : List (String × SemanticTable)) (t : SemanticTable),
      getTable (registerTable l n t) n = some t := by
    intro l t
    induction l with
    | nil => simp [registerTable, getTable]
    | cons kv rest ih =>
        obtain ⟨k, v⟩ := kv
        by_cases hk : k = n
        · simp [registerTable, getTable, hk]
        · simp [registerTable, getTable, hk, ih]
  exact ⟨by rw [hreg]; exact hget l d2, hreg l d1 d2, fun ast => by rw [hreg]⟩

/-- C6 witness: registering the flights descriptor then the sales
descriptor under "t" makes lookup and translation use the latter. -/
theorem register_last_write_wins_witness :
    getTable (registerTable (registerTable [] "t" flightsTable) "t" salesTable) "t" =
      some salesTable :=
  (register_last_write_wins [] "t" flightsTable salesTable).1

/-- C7: every query delivers exactly one outcome — either a batch with
its schema and no error message, or an error message with no batch and
no schema. -/
theorem exactly_one_outcome_delivered
    (β σ : Type) (execute : TranslatedQuery → Except String (β × σ))
    (catalog : List (String × SemanticTable))
    (parsed : Except String ParsedStatement) :
    ((handle_query execute catalog parsed).batch.isSome = true ∧
     (handle_query execute catalog parsed).schema.isSome = true ∧
     (handle_query execute catalog parsed).errorMessage = none) ∨
    ((handle_query execute catalog parsed).batch = none ∧
     (handle_query execute catalog parsed).schema = none ∧
     (handle_query execute catalog parsed).errorMessage.isSome = true) := by
  cases parsed with
  | error msg => right; simp [handle_query]
  | ok ast =>
      cases ht : translate catalog ast with
      | error e => right; simp [handle_query, ht]
      | ok tq =>
          cases hx : execute tq with
          | error msg => right; simp [handle_query, ht, hx]
          | ok p =>
              obtain ⟨b, s⟩ := p
              left; simp [handle_query, ht, hx]

/-- C7 witness: the two outcome shapes at concrete inputs. -/
theorem exactly_one_outcome_delivered_witness :
    (((handle_query execOk flightsCatalog (.ok flightsStmt)).batch.isSome = true ∧
      (handle_query execOk flightsCatalog (.ok flightsStmt)).schema.isSome = true ∧
      (handle_query execOk flightsCatalog (.ok flightsStmt)).errorMessage = none) ∨
     ((handle_query execOk flightsCatalog (.ok flightsStmt)).batch = none ∧
      (handle_query execOk flightsCatalog (.ok flightsStmt)).schema = none ∧
      (handle_query execOk flightsCatalog (.ok flightsStmt)).errorMessage.isSome = true)) :=
  exactly_one_outcome_delivered Nat Nat execOk flightsCatalog (.ok flightsStmt)

/-- C8: the effective name of a selected column spec is the alias when
aliased and the identifier name otherwise, and translation depends on
the select list only through effective names — the underlying
expression content is never inspected. -/
theorem effective_name_drives_classification :
    (∀ n, SelectExpr.effectiveName (.ident n) = n) ∧
    (∀ u a, SelectExpr.effectiveName (.aliased u a) = a) ∧
    (∀ (catalog : List (String × SemanticTable)) (ast : ParsedStatement)
       (ss : List SelectExpr),
      ss.map SelectExpr.effectiveName = ast.selects.map SelectExpr.effectiveName →
      translate catalog { table := ast.table, selects := ss, group := ast.group } =
        translate catalog ast) := by
  refine ⟨fun n => rfl, fun u a => rfl, ?_⟩
  intro catalog ast ss h
  simp only [translate, h]

/-- C8 witness: an aliased select list with a different underlying
expression translates exactly as the plain-identifier one. -/
theorem effective_name_drives_classification_witness :
    SelectExpr.effectiveName (.aliased "SUM(passengers)" "total_passengers") =
      "total_passengers" ∧
    translate flightsCatalog
      { table := flightsStmt.table,
        selects := [.ident "origin", .aliased "SUM(passengers)" "total_passengers"],
        group := flightsStmt.group } =
      translate flightsCatalog flightsStmt :=
  ⟨(effective_name_drives_classification.2.1 "SUM(passengers)" "total_passengers"),
   effective_name_drives_classification.2.2 flightsCatalog flightsStmt
     [.ident "origin", .aliased "SUM(passengers)" "total_passengers"] rfl⟩

/-- C9: a successful translation is well-formed — every selected
dimension is in the descriptor's dimension set, every selected measure
in its measure set, and both are ordered subsequences of the effective
select list. -/
theorem translated_query_wellformed
    (catalog : List (String × SemanticTable)) (ast : ParsedStatement)
    (tq : TranslatedQuery) (tableName : String) (st : SemanticTable)
    (htab : ast.table = some tableName)
    (hst : getTable catalog tableName = some st)
    (ht : translate catalog ast = .ok tq) :
    (∀ c ∈ tq.selectedDimensions, c ∈ st.dimensions) ∧
    (∀ c ∈ tq.selectedMeasures, c ∈ st.measures) ∧
    List.Sublist tq.selectedDimensions (ast.selects.map SelectExpr.effectiveName) ∧
    List.Sublist tq.selectedMeasures (ast.selects.map SelectExpr.effectiveName) := by
  obtain ⟨tn, st', htab', hst', -, -, hc, -⟩ := translate_ok_parts ht
  rw [htab] at htab'
  cases htab'
  rw [hst] at hst'
  cases hst'
  obtain ⟨hdims, hmeas⟩ := classifyCols_ok hc
  refine ⟨?_, ?_, ?_, ?_⟩
  · intro c hcm
    rw [hdims] at hcm
    exact of_decide_eq_true (List.mem_filter.mp hcm).2
  · intro c hcm
    rw [hmeas] at hcm
    have := (List.mem_filter.mp hcm).2
    rw [Bool.and_eq_true] at this
    exact of_decide_eq_true this.2
  · rw [hdims]; exact List.filter_sublist _
  · rw [hmeas]; exact List.filter_sublist _

/-- C9 witness: the flights example is well-formed. -/
theorem translated_query_wellformed_witness :
    translate flightsCatalog flightsStmt = .ok flightsTQ ∧
    (∀ c ∈ flightsTQ.selectedDimensions, c ∈ flightsTable.dimensions) ∧
    (∀ c ∈ flightsTQ.selectedMeasures, c ∈ flightsTable.measures) :=
  ⟨rfl,
   (translated_query_wellformed flightsCatalog flightsStmt flightsTQ
     "flights" flightsTable rfl rfl rfl).1,
   (translated_query_wellformed flightsCatalog flightsStmt flightsTQ
     "flights" flightsTable rfl rfl rfl).2.1⟩

/-- C10: authentication accepts exactly (user = "user", password =
"secret"), is independent of host and database, and never consults the
server's configured username and password. -/
theorem auth_fixed_demo_credentials :
    (∀ (u p h : String) (d : Option String),
      handle_auth u p h d = true ↔ (u = "user" ∧ p = "secret")) ∧
    (∀ (u p h1 h2 : String) (d1 d2 : Option String),
      handle_auth u p h1 d1 = handle_auth u p h2 d2) ∧
    (∀ (srv1 srv2 : BSLPostgresServer) (u p h : String) (d : Option String),
      serverAuth srv1 u p h d = serverAuth srv2 u p h d) := by
  refine ⟨?_, ?_, ?_⟩
  · intro u p h d
    simp [handle_auth]
  · intro u p h1 h2 d1 d2
    rfl
  · intro srv1 srv2 u p h d
    rfl

/-- C10 witness: the demo pair is accepted; the server's own
configured defaults ("postgres"/"postgres") are rejected. -/
theorem auth_fixed_demo_credentials_witness :
    handle_auth "user" "secret" "localhost" none = true ∧
    handle_auth "postgres" "postgres" "localhost" none = false := by
  constructor
  · exact (auth_fixed_demo_credentials.1 "user" "secret" "localhost" none).mpr
      ⟨rfl, rfl⟩
  · cases hb : handle_auth "postgres" "postgres" "localhost" none with
    | false => rfl
    | true =>
        have := (auth_fixed_demo_credentials.1 "postgres" "postgres" "localhost"
          none).mp hb
        exact absurd this.1 (by decide)

end BSL
